import Mathlib

/-!
Verification of the gcpdiag lint rule
`gce/warn_2025_001_time_synchronization_errors` (serial logs do not contain
time synchronization errors) against its natural language specification.

The rule module itself (pattern list, `prepare_rule`, `run_rule`) is embedded
from the Python source.  Its collaborators — `SerialOutputSearch` and the
pattern matching from `gcpdiag.lint.gce.utils`, `is_serial_port_one_logs_available`,
`gce.get_instances`, and the report interface — live outside the given source
tree and are modelled from the specification; every such definition carries a
doc comment saying so.
-/

namespace TimeSyncRule

/-- One serial console log line: an ISO-8601 timestamp and the raw text
(embeds `gcpdiag.queries.logs.LogEntryShort` as used by the rule). -/
structure LogEntryShort where
  timestamp_iso : String
  text : String
deriving DecidableEq

/-- A VM instance as used by the rule: it exposes `id` (used as the search key)
and `name` (used as the sort key and in messages). -/
structure Instance where
  id : Nat
  name : String
deriving DecidableEq

/-- The execution context; the rule only uses its `project_id`. -/
structure Context where
  project_id : String
deriving DecidableEq

/-- `strContains s pat` holds when `pat` occurs in `s` as a contiguous
substring (Python `pat in s`). -/
def strContains (s pat : String) : Bool :=
  decide (pat.data <:+: s.data)

/-- The pattern list `TIME_SYNC_ERROR_MESSAGES` from the source.  The eighth
entry is the Python raw string with a backslash escape before the quote
(`r` string `Can\x5c\x27t synchronise: no selectable sources`). -/
def TIME_SYNC_ERROR_MESSAGES : List String :=
  [ "time may be out of sync",
    "System clock is unsynchronized",
    "Time drift detected",
    "no servers can be used, system clock unsynchronized",
    "time reset",
    "System clock unsynchronized",
    "Time offset too large",
    "Can\x5c\x27t synchronise: no selectable sources",
    "Clock skew detected",
    "Clock skew too great",
    "Could not receive latest log timestamp from server" ]

/-- Interpret a pattern string as a regular expression.  The only regex
metacharacter occurring in `TIME_SYNC_ERROR_MESSAGES` is a backslash escape,
so the regex denotes the literal obtained by dropping each backslash. -/
def regexLiteral : List Char → List Char
  | [] => []
  | ['\x5c'] => []
  | '\x5c' :: d :: rest => d :: regexLiteral rest
  | c :: rest => c :: regexLiteral rest

/-- Modelled from the spec: `PatternSet.matches` in `gcpdiag.lint.gce.utils`
(not under the given source tree) — a pattern matches a line when it is found
as a substring or as a regex match within the line. -/
def patternMatches (p line : String) : Bool :=
  strContains line p || decide (regexLiteral p.data <:+: line.data)

/-- A line matches the pattern set when at least one pattern matches it. -/
def matchesAny (pats : List String) (line : String) : Bool :=
  pats.any fun p => patternMatches p line

/-- The server-side pre-filter expression `filter_str` built in
`prepare_rule`, verbatim from the source. -/
def filter_str : String :=
  "textPayload:(\n    \"time may be out of sync\" OR\n    \"System clock is unsynchronized\" OR\n    \"Time drift detected\" OR\n    \"no servers can be used\" OR\n    \"time reset\" OR\n    \"Time offset too large\" OR\n    \"Can\x27t synchronise\" OR\n    \"Clock skew detected\" OR\n    \"Clock skew too great\" OR\n    \"Could not receive latest log timestamp\"\n  )"

/-- The ten quoted substrings of `filter_str`. -/
def FILTER_SUBSTRINGS : List String :=
  [ "time may be out of sync",
    "System clock is unsynchronized",
    "Time drift detected",
    "no servers can be used",
    "time reset",
    "Time offset too large",
    "Can\x27t synchronise",
    "Clock skew detected",
    "Clock skew too great",
    "Could not receive latest log timestamp" ]

/-- Modelled from the spec: a log line satisfies the pushed-down filter
`textPayload:("A" OR "B" OR ...)` exactly when it contains at least one of
the quoted filter substrings. -/
def satisfiesFilter (line : String) : Bool :=
  FILTER_SUBSTRINGS.any fun p => strContains line p

/-- The per-instance serial log source: the ordered (chronological) list of
log lines for each instance id.  Abstracts the cloud logging backend
(`LogLineSource` in the spec). -/
abbrev LogSource := Nat → List LogEntryShort

/-- Modelled from the spec: the most recent matching line — scan the fetched
lines in chronological order and retain the last line that matches (greatest
timestamp, ties broken by last-seen order). -/
def lastMatch (pats : List String) (lines : List LogEntryShort) : Option LogEntryShort :=
  (lines.filter fun e => matchesAny pats e.text).getLast?

/-- Modelled from the spec: `gcpdiag.lint.gce.utils.SerialOutputSearch` (not
under the given source tree).  It records the log source, the search strings
and the custom filter given at construction, a memoization cache that is
`none` until the single bulk fetch-and-scan has run, and a fetch counter used
to observe how often the underlying fetch happens. -/
structure SerialOutputSearch where
  source : LogSource
  search_strings : List String
  custom_filter : String
  cache : Option (Nat → Option LogEntryShort)
  fetchCount : Nat

/-- Modelled from the spec: `SerialOutputSearch.get_last_match` — the first
call triggers exactly one bulk fetch-and-scan and memoizes the per-instance
results; subsequent calls answer from the cache with no re-fetch. -/
def get_last_match (s : SerialOutputSearch) (instance_id : Nat) :
    Option LogEntryShort × SerialOutputSearch :=
  match s.cache with
  | some results => (results instance_id, s)
  | none =>
      let results := fun j => lastMatch s.search_strings (s.source j)
      (results instance_id,
       { s with cache := some results, fetchCount := s.fetchCount + 1 })

/-- The module-level `logs_by_project` mapping, embedded as a partial map from
project id to the registered search. -/
abbrev LogsByProject := String → Option SerialOutputSearch

/-- `prepare_rule` from the source: registers a fresh `SerialOutputSearch`
for `context.project_id`, built from the pattern list and the pre-filter.
The log source collaborator is passed explicitly. -/
def prepare_rule (src : LogSource) (logs_by_project : LogsByProject)
    (context : Context) : LogsByProject :=
  fun pid =>
    if pid = context.project_id then
      some { source := src,
             search_strings := TIME_SYNC_ERROR_MESSAGES,
             custom_filter := filter_str,
             cache := none,
             fetchCount := 0 }
    else logs_by_project pid

/-- One call on the report interface
(`add_skipped` / `add_failed` / `add_ok`), in call order. -/
inductive ReportAction where
  | skipped : Option Instance → String → ReportAction
  | failed : Instance → String → ReportAction
  | ok : Instance → ReportAction
deriving DecidableEq

/-- The fixed remediation hint appended to every failure message. -/
def remediation : String :=
  "Verify that the instance can reach metadata.google.internal " ++
  "and that NTP/Chrony services are properly configured."

/-- The failure message built in `run_rule` (the f-string, verbatim). -/
def failMessage (inst : Instance) (m : LogEntryShort) : String :=
  "Time synchronization errors detected on instance " ++ inst.name ++ ".\n" ++
  m.timestamp_iso ++ ": \"" ++ m.text ++ "\"\n" ++ remediation

/-- The skip message used when serial port output is unavailable. -/
def unavailableMessage : String := "serial port output is unavailable"

/-- The skip message used when no instances are found. -/
def noInstancesMessage : String := "No instances found"

/-- The comparator used by `sorted(instances, key=lambda i: i.name)`. -/
def byName (a b : Instance) : Bool := decide (a.name ≤ b.name)

/-- The per-instance loop of `run_rule`: query `get_last_match` for each
instance in order, threading the (mutable in Python) search state, and record
one report action per instance. -/
def processInstances : SerialOutputSearch → List Instance →
    List ReportAction × SerialOutputSearch
  | s, [] => ([], s)
  | s, inst :: rest =>
    let r := get_last_match s inst.id
    let act := match r.1 with
      | some m => ReportAction.failed inst (failMessage inst m)
      | none => ReportAction.ok inst
    let tail := processInstances r.2 rest
    (act :: tail.1, tail.2)

/-- Outcome of one `run_rule` call: either the uncaught `KeyError` raised by
the `logs_by_project[context.project_id]` lookup, or the finished list of
report actions together with the final state of the used search (when one was
looked up). -/
inductive RunOutcome where
  | keyError : RunOutcome
  | finished : List ReportAction → Option SerialOutputSearch → RunOutcome

/-- `run_rule` from the source.  The collaborators
`is_serial_port_one_logs_available` and `gce.get_instances` are abstracted as
the `available` flag and the `instances` list. -/
def run_rule (logs_by_project : LogsByProject) (available : Bool)
    (instances : List Instance) (context : Context) : RunOutcome :=
  if available = false then
    .finished [.skipped none unavailableMessage] none
  else
    match logs_by_project context.project_id with
    | none => .keyError
    | some search =>
      if instances.isEmpty then
        .finished [.skipped none noInstancesMessage] (some search)
      else
        let r := processInstances search (instances.mergeSort byName)
        .finished r.1 (some r.2)

/-- The pure observation of a search: the answer `get_last_match` gives for
instance id `j`, whether it is already cached or still to be fetched. -/
def resolve (s : SerialOutputSearch) (j : Nat) : Option LogEntryShort :=
  match s.cache with
  | some results => results j
  | none => lastMatch s.search_strings (s.source j)

/-- Thread a sequence of `get_last_match` queries through a search state,
keeping only the final state; used to observe the fetch counter. -/
def runQueries : SerialOutputSearch → List Nat → SerialOutputSearch
  | s, [] => s
  | s, i :: rest => runQueries (get_last_match s i).2 rest

/-- The report action the loop body of `run_rule` emits for one instance. -/
def actionOf (s : SerialOutputSearch) (inst : Instance) : ReportAction :=
  match resolve s inst.id with
  | some m => ReportAction.failed inst (failMessage inst m)
  | none => ReportAction.ok inst

/-- Whether a report action is a verdict (failed or ok) for this instance. -/
def isVerdictFor (inst : Instance) : ReportAction → Bool
  | .skipped _ _ => false
  | .failed j _ => decide (j = inst)
  | .ok j => decide (j = inst)

/-- The name of the instance a report action is about (empty for a skip). -/
def actionName : ReportAction → String
  | .skipped _ _ => ""
  | .failed j _ => j.name
  | .ok j => j.name

/-- Concrete log entry from Scenario A of the spec. -/
def demoEntry : LogEntryShort :=
  { timestamp_iso := "2025-01-01T00:00:00Z",
    text := "System clock is unsynchronized" }

/-- Concrete log source: every instance has the Scenario A line. -/
def demoSource : LogSource := fun _ => [demoEntry]

/-- The fresh search `prepare_rule` registers over `demoSource`. -/
def demoSearch : SerialOutputSearch :=
  { source := demoSource,
    search_strings := TIME_SYNC_ERROR_MESSAGES,
    custom_filter := filter_str,
    cache := none,
    fetchCount := 0 }

/-- Concrete context. -/
def demoContext : Context := { project_id := "project1" }

/-- Concrete registry holding `demoSearch` for every project id. -/
def demoMap : LogsByProject := fun _ => some demoSearch

/-- Concrete instances. -/
def demoInstance : Instance := { id := 1, name := "vm-a" }

def demoInstance2 : Instance := { id := 2, name := "vm-b" }

theorem get_last_match_fst (s : SerialOutputSearch) (i : Nat) :
    (get_last_match s i).1 = resolve s i := by
  cases h : s.cache <;> simp [get_last_match, resolve, h]

theorem resolve_get_last_match (s : SerialOutputSearch) (i j : Nat) :
    resolve (get_last_match s i).2 j = resolve s j := by
  cases h : s.cache <;> simp [get_last_match, resolve, h]

theorem get_last_match_of_cache_some (s : SerialOutputSearch) (i : Nat)
    (f : Nat → Option LogEntryShort) (h : s.cache = some f) :
    (get_last_match s i).2 = s := by
  simp [get_last_match, h]

theorem get_last_match_of_cache_none (s : SerialOutputSearch) (i : Nat)
    (h : s.cache = none) :
    (get_last_match s i).2.cache = some (fun j => lastMatch s.search_strings (s.source j)) ∧
    (get_last_match s i).2.fetchCount = s.fetchCount + 1 := by
  simp [get_last_match, h]

theorem runQueries_of_cache_some (f : Nat → Option LogEntryShort) :
    ∀ (l : List Nat) (s : SerialOutputSearch), s.cache = some f → runQueries s l = s
  | [], _, _ => rfl
  | i :: rest, s, h => by
    have h2 : (get_last_match s i).2 = s := get_last_match_of_cache_some s i f h
    show runQueries (get_last_match s i).2 rest = s
    rw [h2]
    exact runQueries_of_cache_some f rest s h

theorem runQueries_fetchCount_le_one (s : SerialOutputSearch)
    (hc : s.cache = none) (hf : s.fetchCount = 0) :
    ∀ l, (runQueries s l).fetchCount ≤ 1
  | [] => by simp [runQueries, hf]
  | i :: rest => by
    obtain ⟨h1, h2⟩ := get_last_match_of_cache_none s i hc
    show (runQueries (get_last_match s i).2 rest).fetchCount ≤ 1
    rw [runQueries_of_cache_some _ rest _ h1, h2, hf]

theorem processInstances_snd :
    ∀ (l : List Instance) (s : SerialOutputSearch),
      (processInstances s l).2 = runQueries s (l.map Instance.id)
  | [], _ => rfl
  | inst :: rest, s => by
    show (processInstances (get_last_match s inst.id).2 rest).2 =
      runQueries (get_last_match s inst.id).2 (rest.map Instance.id)
    exact processInstances_snd rest _

theorem actionOf_get_last_match (s : SerialOutputSearch) (i : Nat) :
    actionOf (get_last_match s i).2 = actionOf s := by
  funext inst
  simp [actionOf, resolve_get_last_match]

theorem processInstances_fst :
    ∀ (l : List Instance) (s : SerialOutputSearch),
      (processInstances s l).1 = l.map (actionOf s)
  | [], _ => rfl
  | inst :: rest, s => by
    have h1 : (processInstances s (inst :: rest)).1 =
        (match (get_last_match s inst.id).1 with
         | some m => ReportAction.failed inst (failMessage inst m)
         | none => ReportAction.ok inst) ::
        (processInstances (get_last_match s inst.id).2 rest).1 := rfl
    rw [h1, get_last_match_fst, processInstances_fst rest, actionOf_get_last_match]
    rfl

theorem strContains_iff {s pat : String} :
    strContains s pat = true ↔ pat.data <:+: s.data := by
  simp [strContains]

theorem strContains_self (s : String) : strContains s s = true :=
  strContains_iff.mpr ⟨[], [], by simp⟩

theorem strContains_append_left (a b pat : String)
    (h : strContains b pat = true) : strContains (a ++ b) pat = true := by
  rw [strContains_iff] at h ⊢
  rw [String.data_append]
  obtain ⟨u, v, huv⟩ := h
  exact ⟨a.data ++ u, v, by rw [← huv]; simp⟩

theorem strContains_append_right (a b pat : String)
    (h : strContains a pat = true) : strContains (a ++ b) pat = true := by
  rw [strContains_iff] at h ⊢
  rw [String.data_append]
  obtain ⟨u, v, huv⟩ := h
  exact ⟨u, v ++ b.data, by rw [← huv]; simp⟩

theorem failMessage_contains_timestamp (inst : Instance) (m : LogEntryShort) :
    strContains (failMessage inst m) m.timestamp_iso = true := by
  unfold failMessage
  apply strContains_append_right
  apply strContains_append_right
  apply strContains_append_right
  apply strContains_append_right
  apply strContains_append_left
  exact strContains_self _

theorem failMessage_contains_text (inst : Instance) (m : LogEntryShort) :
    strContains (failMessage inst m) m.text = true := by
  unfold failMessage
  apply strContains_append_right
  apply strContains_append_right
  apply strContains_append_left
  exact strContains_self _

theorem failMessage_contains_remediation (inst : Instance) (m : LogEntryShort) :
    strContains (failMessage inst m) remediation = true := by
  unfold failMessage
  apply strContains_append_left
  exact strContains_self _

theorem byName_trans : ∀ (a b c : Instance), byName a b → byName b c → byName a c := by
  intro a b c h1 h2
  simp only [byName, decide_eq_true_eq] at *
  exact le_trans h1 h2

theorem byName_total : ∀ (a b : Instance), byName a b || byName b a := by
  intro a b
  simp only [byName, Bool.or_eq_true, decide_eq_true_eq]
  exact le_total a.name b.name

theorem actionName_actionOf (s : SerialOutputSearch) (inst : Instance) :
    actionName (actionOf s inst) = inst.name := by
  cases h : resolve s inst.id <;> simp [actionOf, actionName, h]

theorem isVerdictFor_actionOf (s : SerialOutputSearch) (inst a : Instance) :
    isVerdictFor inst (actionOf s a) = decide (a = inst) := by
  cases h : resolve s a.id <;> simp [actionOf, isVerdictFor, h]

/-- Claim C1, evaluated at the failing input: the log line
`System clock unsynchronized` (the sixth pattern, verbatim) matches the
pattern set, yet it contains none of the ten quoted pre-filter substrings,
so the pushed-down filter excludes a line the PatternSet would match. -/
theorem filter_excludes_matching_line :
    matchesAny TIME_SYNC_ERROR_MESSAGES "System clock unsynchronized" = true ∧
    satisfiesFilter "System clock unsynchronized" = false := by
  decide

/-- Claim C2 counterexample: with zero instances in scope and serial logs
unavailable, run_rule reports a single skip whose message is the
unavailability message, which is not the "no instances" message — so the
reported skip is not independent of serial log availability. -/
theorem zero_instances_skip_depends_on_availability :
    run_rule demoMap false [] demoContext =
      .finished [.skipped none unavailableMessage] none ∧
    unavailableMessage ≠ noInstancesMessage :=
  ⟨rfl, by decide⟩

/-- Claim C2 as amended: for a context with zero instances in scope and a
registered search, run_rule reports exactly one "No instances found" skip
when serial logs are available; when they are unavailable it instead reports
exactly one skip with the unavailability message. -/
theorem zero_instances_single_skip (m : LogsByProject) (ctx : Context)
    (s : SerialOutputSearch) (h : m ctx.project_id = some s) :
    run_rule m true [] ctx =
      .finished [.skipped none noInstancesMessage] (some s) ∧
    run_rule m false [] ctx =
      .finished [.skipped none unavailableMessage] none := by
  refine ⟨?_, rfl⟩
  simp [run_rule, h]

theorem zero_instances_single_skip_witness :
    run_rule demoMap true [] demoContext =
      .finished [.skipped none noInstancesMessage] (some demoSearch) ∧
    run_rule demoMap false [] demoContext =
      .finished [.skipped none unavailableMessage] none :=
  zero_instances_single_skip demoMap demoContext demoSearch rfl

/-- Claim C3: prepare_rule registers a single fresh search per project, and
on that search the underlying bulk fetch-and-scan runs at most once along
any sequence of get_last_match queries and along any instance list processed
by the run_rule loop. -/
theorem fetch_at_most_once (src : LogSource) (m : LogsByProject)
    (ctx : Context) (s : SerialOutputSearch) (qs : List Nat)
    (insts : List Instance)
    (h : prepare_rule src m ctx ctx.project_id = some s) :
    (runQueries s qs).fetchCount ≤ 1 ∧
    (processInstances s insts).2.fetchCount ≤ 1 := by
  have hs : { source := src, search_strings := TIME_SYNC_ERROR_MESSAGES,
              custom_filter := filter_str, cache := none,
              fetchCount := 0 : SerialOutputSearch } = s := by
    simpa [prepare_rule] using h
  subst hs
  exact ⟨runQueries_fetchCount_le_one _ rfl rfl qs,
    by rw [processInstances_snd]; exact runQueries_fetchCount_le_one _ rfl rfl _⟩

theorem fetch_at_most_once_witness :
    (runQueries demoSearch [1, 2, 1]).fetchCount ≤ 1 ∧
    (processInstances demoSearch [demoInstance, demoInstance2]).2.fetchCount ≤ 1 :=
  fetch_at_most_once demoSource demoMap demoContext demoSearch [1, 2, 1]
    [demoInstance, demoInstance2] rfl

/-- Claim C4: in a run that reaches the per-instance loop, an instance whose
get_last_match answer is a match is reported failed with a message containing
the match timestamp, the verbatim matched text and the remediation hint,
while an instance whose answer is no match is reported ok. -/
theorem per_instance_verdicts (m : LogsByProject) (insts : List Instance)
    (ctx : Context) (s : SerialOutputSearch) (inst : Instance)
    (hs : m ctx.project_id = some s) (hmem : inst ∈ insts) :
    ∃ acts os, run_rule m true insts ctx = .finished acts os ∧
      (∀ e, (get_last_match s inst.id).1 = some e →
        ReportAction.failed inst (failMessage inst e) ∈ acts ∧
        strContains (failMessage inst e) e.timestamp_iso = true ∧
        strContains (failMessage inst e) e.text = true ∧
        strContains (failMessage inst e) remediation = true) ∧
      ((get_last_match s inst.id).1 = none → ReportAction.ok inst ∈ acts) := by
  have hne : insts.isEmpty = false := by
    cases insts with
    | nil => cases hmem
    | cons a l => rfl
  refine ⟨(processInstances s (insts.mergeSort byName)).1,
          some (processInstances s (insts.mergeSort byName)).2, ?_, ?_, ?_⟩
  · simp [run_rule, hs, hne]
  · intro e he
    rw [get_last_match_fst] at he
    have ha : actionOf s inst = ReportAction.failed inst (failMessage inst e) := by
      simp [actionOf, he]
    refine ⟨?_, failMessage_contains_timestamp inst e,
            failMessage_contains_text inst e, failMessage_contains_remediation inst e⟩
    rw [processInstances_fst, ← ha]
    exact List.mem_map_of_mem _ (List.mem_mergeSort.mpr hmem)
  · intro he
    rw [get_last_match_fst] at he
    have ha : actionOf s inst = ReportAction.ok inst := by
      simp [actionOf, he]
    rw [processInstances_fst, ← ha]
    exact List.mem_map_of_mem _ (List.mem_mergeSort.mpr hmem)

theorem per_instance_verdicts_witness :
    ∃ acts os, run_rule demoMap true [demoInstance] demoContext = .finished acts os ∧
      (∀ e, (get_last_match demoSearch demoInstance.id).1 = some e →
        ReportAction.failed demoInstance (failMessage demoInstance e) ∈ acts ∧
        strContains (failMessage demoInstance e) e.timestamp_iso = true ∧
        strContains (failMessage demoInstance e) e.text = true ∧
        strContains (failMessage demoInstance e) remediation = true) ∧
      ((get_last_match demoSearch demoInstance.id).1 = none →
        ReportAction.ok demoInstance ∈ acts) :=
  per_instance_verdicts demoMap [demoInstance] demoContext demoSearch demoInstance
    rfl (by simp)

/-- Claim C5: when serial port logs are unavailable for the context, run_rule
emits exactly one skip with no associated instance and nothing else — for
every registry, every instance list and every context, so no search is
queried and no per-instance verdict is produced. -/
theorem unavailable_single_skip (m : LogsByProject) (insts : List Instance)
    (ctx : Context) :
    run_rule m false insts ctx =
      .finished [.skipped none unavailableMessage] none :=
  rfl

/-- Claim C6: in a run that reaches the per-instance loop, each in-scope
instance receives exactly one verdict — one failed or one ok report, never
both and never more than one. -/
theorem one_verdict_per_instance (m : LogsByProject) (insts : List Instance)
    (ctx : Context) (s : SerialOutputSearch) (inst : Instance)
    (hs : m ctx.project_id = some s) (hnd : insts.Nodup) (hmem : inst ∈ insts) :
    ∃ acts os, run_rule m true insts ctx = .finished acts os ∧
      acts.countP (isVerdictFor inst) = 1 := by
  have hne : insts.isEmpty = false := by
    cases insts with
    | nil => cases hmem
    | cons a l => rfl
  refine ⟨(processInstances s (insts.mergeSort byName)).1,
          some (processInstances s (insts.mergeSort byName)).2, ?_, ?_⟩
  · simp [run_rule, hs, hne]
  · rw [processInstances_fst, List.countP_map]
    have hcongr : List.countP (isVerdictFor inst ∘ actionOf s) (insts.mergeSort byName) =
        List.countP (fun a => a == inst) (insts.mergeSort byName) := by
      apply List.countP_congr
      intro a _
      simp [Function.comp, isVerdictFor_actionOf, beq_iff_eq]
    rw [hcongr, ← List.count_eq_countP,
      (List.mergeSort_perm insts byName).count_eq]
    exact List.count_eq_one_of_mem hnd hmem

theorem one_verdict_per_instance_witness :
    ∃ acts os, run_rule demoMap true [demoInstance, demoInstance2] demoContext =
        .finished acts os ∧
      acts.countP (isVerdictFor demoInstance) = 1 :=
  one_verdict_per_instance demoMap [demoInstance, demoInstance2] demoContext
    demoSearch demoInstance rfl (by decide) (by simp)

/-- Claim C7: whenever run_rule finishes, its sequence of report actions is
sorted in ascending order of the reported instance names: the per-instance
loop runs over the instances sorted by name, so the output order is
deterministic for a fixed instance list. -/
theorem verdicts_sorted_by_name (m : LogsByProject) (av : Bool)
    (insts : List Instance) (ctx : Context) (acts : List ReportAction)
    (os : Option SerialOutputSearch)
    (h : run_rule m av insts ctx = .finished acts os) :
    List.Pairwise (fun x y => actionName x ≤ actionName y) acts := by
  cases av with
  | false =>
    have : acts = [.skipped none unavailableMessage] := by
      cases h
      rfl
    subst this
    simp
  | true =>
    rw [run_rule] at h
    simp only [Bool.true_eq_false, if_false] at h
    cases hm : m ctx.project_id with
    | none => simp [hm] at h
    | some s =>
      simp only [hm] at h
      by_cases hne : insts.isEmpty
      · rw [if_pos hne] at h
        cases h
        simp
      · rw [if_neg hne] at h
        cases h
        rw [processInstances_fst]
        rw [List.pairwise_map]
        have hsorted : (insts.mergeSort byName).Pairwise (fun a b => byName a b) :=
          List.sorted_mergeSort byName_trans byName_total insts
        refine hsorted.imp ?_
        intro a b hab
        rw [actionName_actionOf, actionName_actionOf]
        simpa [byName, decide_eq_true_eq] using hab

theorem verdicts_sorted_by_name_witness :
    List.Pairwise (fun x y => actionName x ≤ actionName y)
      (processInstances demoSearch
        ([demoInstance2, demoInstance].mergeSort byName)).1 :=
  verdicts_sorted_by_name demoMap true [demoInstance2, demoInstance] demoContext
    _ _ rfl

/-- Claim C8: prepare_rule is idempotent — registering the search twice in
succession for the same context leaves logs_by_project exactly as
registering it once, including the (still fresh) memoization state. -/
theorem prepare_rule_idempotent (src : LogSource) (m : LogsByProject)
    (ctx : Context) :
    prepare_rule src (prepare_rule src m ctx) ctx = prepare_rule src m ctx := by
  funext pid
  unfold prepare_rule
  by_cases h : pid = ctx.project_id
  · simp [h]
  · simp [h]

/-- Claim C9: get_last_match is idempotent per instance — a second call for
the same instance id returns the identical result and leaves the search state
(cache contents and fetch counter) unchanged, so no re-fetch happens. -/
theorem get_last_match_idempotent (s : SerialOutputSearch) (i : Nat) :
    get_last_match (get_last_match s i).2 i =
      ((get_last_match s i).1, (get_last_match s i).2) := by
  cases h : s.cache <;> simp [get_last_match, h]

/-- Claim C10: if serial logs are available but prepare_rule never registered
an entry for the project of the context, run_rule hits the uncaught KeyError
at the logs_by_project lookup, before any reporter call. -/
theorem missing_prepare_key_error (m : LogsByProject) (insts : List Instance)
    (ctx : Context) (h : m ctx.project_id = none) :
    run_rule m true insts ctx = .keyError := by
  simp [run_rule, h]

theorem missing_prepare_key_error_witness :
    run_rule (fun _ => none) true [demoInstance] demoContext = .keyError :=
  missing_prepare_key_error (fun _ => none) [demoInstance] demoContext rfl

end TimeSyncRule
